import Mathlib

/-!
Shallow embedding of the svelte-micro-router core (src/src/router/Router.ts):
the Route class (slash trimming, segment splitting, path matching with
parameter extraction) and the Router class (route registry, resolution,
navigation state machine, slot and listener notification).

JavaScript strings are modelled as Lean String values; the JavaScript string
builtins used by the source (split, startsWith, endsWith, slice, replace of
the trim regex, toLowerCase, decodeURIComponent) are modelled as explicit
structural functions over the character list so that every definition is
executable and kernel-reducible.  JavaScript objects used as string-keyed
records are modelled as association lists with assignment semantics
(overwrite in place, otherwise append), and exceptions (decodeURIComponent
throwing URIError on malformed input) as the error branch of Except.
-/

instance {ε α : Type} [DecidableEq ε] [DecidableEq α] : DecidableEq (Except ε α) := fun a b =>
  match a, b with
  | .ok x, .ok y =>
    if h : x = y then .isTrue (congrArg Except.ok h)
    else .isFalse (fun hc => h (Except.ok.inj hc))
  | .ok _, .error _ => .isFalse (fun hc => Except.noConfusion hc)
  | .error _, .ok _ => .isFalse (fun hc => Except.noConfusion hc)
  | .error e, .error f =>
    if h : e = f then .isTrue (congrArg Except.error h)
    else .isFalse (fun hc => h (Except.error.inj hc))

/-- Model of a JavaScript hex digit test used by percent decoding: value of
one hex digit, upper or lower case, if any. -/
def hexDigit (c : Char) : Option Nat :=
  if '0' ≤ c ∧ c ≤ '9' then some (c.toNat - 48)
  else if 'A' ≤ c ∧ c ≤ 'F' then some (c.toNat - 55)
  else if 'a' ≤ c ∧ c ≤ 'f' then some (c.toNat - 87)
  else none

/-- Model of the JavaScript decodeURIComponent builtin on the character
list of a string: percent escapes are decoded byte-wise and the bytes
UTF-8 decoded following the ECMAScript Decode algorithm (with an empty
reserved set); `none` models the thrown URIError on a malformed escape or
an invalid byte sequence, `some` the decoded character list. -/
def decodeURIComponentChars : List Char → Option (List Char)
  | [] => some []
  | '%' :: h1 :: h2 :: rest =>
    match hexDigit h1, hexDigit h2 with
    | some a1, some a2 =>
      let b := 16 * a1 + a2
      if b < 128 then
        (decodeURIComponentChars rest).map (fun t => Char.ofNat b :: t)
      else if 194 ≤ b ∧ b ≤ 223 then
        match rest with
        | '%' :: g1 :: g2 :: rest2 =>
          match hexDigit g1, hexDigit g2 with
          | some b1, some b2 =>
            let c1 := 16 * b1 + b2
            if 128 ≤ c1 ∧ c1 ≤ 191 then
              (decodeURIComponentChars rest2).map
                (fun t => Char.ofNat ((b - 192) * 64 + (c1 - 128)) :: t)
            else none
          | _, _ => none
        | _ => none
      else if 224 ≤ b ∧ b ≤ 239 then
        match rest with
        | '%' :: g1 :: g2 :: '%' :: g3 :: g4 :: rest2 =>
          match hexDigit g1, hexDigit g2, hexDigit g3, hexDigit g4 with
          | some b1, some b2, some b3, some b4 =>
            let c1 := 16 * b1 + b2
            let c2 := 16 * b3 + b4
            if (if b = 224 then 160 else 128) ≤ c1 ∧
                 c1 ≤ (if b = 237 then 159 else 191) ∧
                 128 ≤ c2 ∧ c2 ≤ 191 then
              (decodeURIComponentChars rest2).map
                (fun t => Char.ofNat ((b - 224) * 4096 + (c1 - 128) * 64 + (c2 - 128)) :: t)
            else none
          | _, _, _, _ => none
        | _ => none
      else if 240 ≤ b ∧ b ≤ 244 then
        match rest with
        | '%' :: g1 :: g2 :: '%' :: g3 :: g4 :: '%' :: g5 :: g6 :: rest2 =>
          match hexDigit g1, hexDigit g2, hexDigit g3, hexDigit g4,
                hexDigit g5, hexDigit g6 with
          | some b1, some b2, some b3, some b4, some b5, some b6 =>
            let c1 := 16 * b1 + b2
            let c2 := 16 * b3 + b4
            let c3 := 16 * b5 + b6
            if (if b = 240 then 144 else 128) ≤ c1 ∧
                 c1 ≤ (if b = 244 then 143 else 191) ∧
                 128 ≤ c2 ∧ c2 ≤ 191 ∧ 128 ≤ c3 ∧ c3 ≤ 191 then
              (decodeURIComponentChars rest2).map
                (fun t => Char.ofNat ((b - 240) * 262144 + (c1 - 128) * 4096 +
                  (c2 - 128) * 64 + (c3 - 128)) :: t)
            else none
          | _, _, _, _, _, _ => none
        | _ => none
      else none
    | _, _ => none
  | '%' :: _ => none
  | c :: rest => (decodeURIComponentChars rest).map (fun t => c :: t)

/-- Model of the JavaScript decodeURIComponent builtin on strings. -/
def decodeURIComponent (s : String) : Option String :=
  (decodeURIComponentChars s.data).map String.mk

/-- Model of the JavaScript s.startsWith(c) builtin for a one-character
argument (the source only tests single-character heads). -/
def startsWithChar (s : String) (c : Char) : Bool :=
  match s.data with
  | [] => false
  | b :: _ => b == c

/-- Model of the JavaScript s.endsWith(c) builtin for a one-character
argument (the source only tests single-character tails). -/
def endsWithChar (s : String) (c : Char) : Bool :=
  match s.data.getLast? with
  | some b => b == c
  | none => false

/-- Model of the JavaScript s.slice(1) builtin: drop the first character. -/
def jsSlice1 (s : String) : String :=
  String.mk s.data.tail

/-- One leading slash is removed when present: the first alternative of the
trim regex, which can match only at position zero. -/
def dropLeadingSlash : List Char → List Char
  | [] => []
  | c :: rest => if c = '/' then rest else c :: rest

/-- One trailing slash is removed when present: the second alternative of
the trim regex, which can match only at the final position. -/
def dropTrailingSlash (l : List Char) : List Char :=
  match l.getLast? with
  | some c => if c = '/' then l.dropLast else l
  | none => l

/-- Route.trimSlashes: path.replace of the regex matching one leading or
one trailing slash, globally.  The two alternatives can each match at most
once (start and end of the string), so the replacement removes at most one
leading and one trailing slash, where the trailing match is looked for in
what remains after the leading match. -/
def trimSlashes (path : String) : String :=
  String.mk (dropTrailingSlash (dropLeadingSlash path.data))

/-- Model of the JavaScript s.split(sep) builtin for the one-character
separator the source uses: split on every slash, keeping empty pieces, with
the empty string splitting to one empty piece. -/
def splitOnSlash : List Char → List (List Char)
  | [] => [[]]
  | '/' :: rest => [] :: splitOnSlash rest
  | c :: rest =>
    match splitOnSlash rest with
    | s :: ss => (c :: s) :: ss
    | [] => [[c]]

/-- trim + split step shared by Route construction and Route.match:
trimSlashes followed by split on slash. -/
def splitSegs (s : String) : List String :=
  (splitOnSlash (trimSlashes s).data).map String.mk

/-- The JavaScript object assignment m[k] = v on a string-keyed record
modelled as an association list: overwrite the existing entry in place when
the key is present, otherwise append the new entry. -/
def objInsert : List (String × String) → String → String → List (String × String)
  | [], k, v => [(k, v)]
  | p :: rest, k, v => if p.1 = k then (k, v) :: rest else p :: objInsert rest k v

/-- JavaScript property read m[k] on a record modelled as an association
list built by objInsert (first matching key). -/
def objLookup : List (String × String) → String → Option String
  | [], _ => none
  | p :: rest, k => if p.1 = k then some p.2 else objLookup rest k

/-- The Route class: a registered path template with its component payload
(opaque to the core, modelled by a numeric identity) and optional static
metadata (null modelled as none). -/
structure Route where
  path : String
  component : Nat
  metaInformation : Option (List (String × String))
deriving DecidableEq

/-- Route.urlParts, computed in the constructor: the template trimmed and
split on slash. -/
def Route.urlParts (r : Route) : List String :=
  splitSegs r.path

/-- The loop body of Route.match, walking the template segments and path
segments pairwise and accumulating the match object: a template segment
starting with a colon is a parameter; the empty path segment is rejected,
otherwise the segment is percent-decoded (error models the URIError thrown
by decodeURIComponent) and bound under the template segment without its
colon; any other template segment must equal the path segment exactly. -/
def matchSegs : List String → List String → List (String × String) →
    Except Unit (Option (List (String × String)))
  | [], _, acc => Except.ok (some acc)
  | p :: pats, segs0, acc =>
    match segs0 with
    | [] => Except.ok none
    | seg :: segs =>
      if startsWithChar p ':' then
        if seg = "" then Except.ok none
        else
          match decodeURIComponent seg with
          | none => Except.error ()
          | some d => matchSegs pats segs (objInsert acc (jsSlice1 p) d)
      else if seg ≠ p then Except.ok none
      else matchSegs pats segs acc

/-- Route.match: trim and split the candidate path, return null (none) when
the segment counts differ, otherwise walk the segments pairwise from the
empty match object. -/
def Route.matchPath (r : Route) (path : String) :
    Except Unit (Option (List (String × String))) :=
  let pathSegments := splitSegs path
  if r.urlParts.length ≠ pathSegments.length then Except.ok none
  else matchSegs r.urlParts pathSegments []

/-- The transition descriptor fired on the url-changing event: the arg
object of Router.navigate, with the source's spelling of its cancellation
flag.  Listeners receive the one shared mutable object, so a listener is a
function from the descriptor it sees to the descriptor it leaves behind. -/
structure NavArg where
  cancled : Bool
  source : Option Route
  destination : Option Route

/-- Observable side effects of the Router on its collaborators: a slot's
updateSlot call carrying the new resolution, and a history.pushState call
carrying the encoded url (its uniqueness token comes from the wall clock,
external to this embedding). -/
inductive Effect where
  | updateSlot (slot : Nat) (route : Option Route)
  | pushHistory (url : String)
deriving DecidableEq

/-- The Router class state: registered routes in order, registered slots in
order (slots identified by their object identity, modelled as a number),
the named-event handler table, and the current route (undefined modelled
as none). -/
structure Router where
  routes : List Route
  slots : List Nat
  events : List (String × List (NavArg → NavArg))
  currentRoute : Option Route

/-- Property lookup in the events table (this.events[name] guarded by
hasOwnProperty). -/
def lookupEvent : List (String × List (NavArg → NavArg)) → String →
    Option (List (NavArg → NavArg))
  | [], _ => none
  | (n, hs) :: rest, name => if n = name then some hs else lookupEvent rest name

/-- Router.addEventListener: push onto the existing handler list, or create
a fresh one-element list for a new event name. -/
def addHandler : List (String × List (NavArg → NavArg)) → String →
    (NavArg → NavArg) → List (String × List (NavArg → NavArg))
  | [], name, h => [(name, [h])]
  | (n, hs) :: rest, name, h =>
    if n = name then (n, hs ++ [h]) :: rest else (n, hs) :: addHandler rest name h

/-- Router.addEventListener on the router state. -/
def Router.addEventListener (r : Router) (name : String) (handler : NavArg → NavArg) : Router :=
  { r with events := addHandler r.events name handler }

/-- Router.fireEvent: apply every registered handler for the name, in
order, to the one shared descriptor (each handler sees the mutations of the
handlers before it); no handlers registered leaves the descriptor as is. -/
def Router.fireEvent (r : Router) (name : String) (arg : NavArg) : NavArg :=
  match lookupEvent r.events name with
  | none => arg
  | some hs => hs.foldl (fun a h => h a) arg

/-- The filter step of Router.getRouteByPath: routes.filter over the
effectful match predicate, evaluated left to right on every route (an
exception from any route's match propagates). -/
def filterMatching : List Route → String → Except Unit (List Route)
  | [], _ => Except.ok []
  | rt :: rts, p => do
    let res ← rt.matchPath p
    let rest ← filterMatching rts p
    match res with
    | some _ => Except.ok (rt :: rest)
    | none => Except.ok rest

/-- Router.getRouteByPath: append a trailing slash when missing, collect
the matching routes, return the first (undefined when none, modelled by
Option). -/
def Router.getRouteByPath (r : Router) (path : String) : Except Unit (Option Route) := do
  let p := if endsWithChar path '/' then path else path ++ "/"
  let matching ← filterMatching r.routes p
  Except.ok matching.head?

/-- Model of location.hash.slice(1).toLowerCase() with the empty-string
fallback to the root path, as a function of the raw hash fragment. -/
def getCurrentUrl (hash : String) : String :=
  let s := String.mk ((hash.data.drop 1).map Char.toLower)
  if s = "" then "/" else s

/-- Router.getCurrentRoute: resolve the current hash-derived url. -/
def Router.getCurrentRoute (r : Router) (hash : String) : Except Unit (Option Route) :=
  r.getRouteByPath (getCurrentUrl hash)

/-- Router.registerRoutes: append the new routes; on the first registration
with no current route yet, bootstrap the current route from the current
url. -/
def Router.registerRoutes (r : Router) (hash : String) (newRoutes : List Route) :
    Except Unit Router := do
  let r2 : Router := { r with routes := r.routes ++ newRoutes }
  match r2.currentRoute with
  | none => do
    let cur ← r2.getCurrentRoute hash
    Except.ok { r2 with currentRoute := cur }
  | some _ => Except.ok r2

/-- The splice step of Router.unregisterRoutes: remove the first occurrence
(indexOf identity hit) of the route, when present. -/
def removeFirst : List Route → Route → List Route
  | [], _ => []
  | x :: xs, item => if x = item then xs else x :: removeFirst xs item

/-- Router.unregisterRoutes: remove each listed route in turn. -/
def Router.unregisterRoutes (r : Router) (removeRoutes : List Route) : Router :=
  { r with routes := removeRoutes.foldl removeFirst r.routes }

/-- Router.registerSlot: push the slot, then synchronously deliver the
current route to it, computing one from the current url when none is set
yet. -/
def Router.registerSlot (r : Router) (hash : String) (slot : Nat) :
    Except Unit (Router × List Effect) := do
  let r2 : Router := { r with slots := r.slots ++ [slot] }
  let route ← match r2.currentRoute with
    | some c => Except.ok (some c)
    | none => r2.getCurrentRoute hash
  Except.ok (r2, [Effect.updateSlot slot route])

/-- Router.unregisterSlot: drop every identity-equal slot. -/
def Router.unregisterSlot (r : Router) (slot : Nat) : Router :=
  { r with slots := r.slots.filter (fun x => x != slot) }

/-- Router.navigate: resolve the destination, fire the url-changing event
on the fresh descriptor, and unless the listeners left it cancelled, commit:
set the current route, inform every slot in order with it, and push one
history entry for the encoded url when pushState is set.  The effect trace
records the slot and history calls. -/
def Router.navigate (r : Router) (url : String) (pushState : Bool) :
    Except Unit (Router × List Effect) := do
  let destinationRoute ← r.getRouteByPath url
  let arg := r.fireEvent "url-changing"
    { cancled := false, source := r.currentRoute, destination := destinationRoute }
  if arg.cancled then Except.ok (r, [])
  else
    Except.ok ({ r with currentRoute := destinationRoute },
      r.slots.map (fun s => Effect.updateSlot s destinationRoute) ++
        (if pushState then [Effect.pushHistory ("/#" ++ url)] else []))

/-- Router.popState handler: re-enter navigate from the current hash with
no history push. -/
def Router.popState (r : Router) (hash : String) : Except Unit (Router × List Effect) :=
  r.navigate (getCurrentUrl hash) false

/-- The zero-parameter normalization step of Router.getCurrentParams: a
match object with no keys is replaced by null. -/
def normParams : Option (List (String × String)) → Option (List (String × String))
  | some m => if m.length = 0 then none else some m
  | none => none

/-- The JavaScript object spread fold: assign every entry of the added list
onto the base object in order. -/
def objSpread (base : List (String × String)) (add : List (String × String)) :
    List (String × String) :=
  add.foldl (fun acc p => objInsert acc p.1 p.2) base

/-- Router.getCurrentParams: re-run the route's match on the url, normalize
an empty match object to null, return undefined when both the match result
and the static metadata are null, otherwise the spread of the metadata
overlaid by the match result.  The method reads no router state. -/
def Router.getCurrentParams (url : String) (route : Route) :
    Except Unit (Option (List (String × String))) := do
  let params0 ← route.matchPath url
  let params := normParams params0
  let baseParams := route.metaInformation
  match params, baseParams with
  | none, none => Except.ok none
  | _, _ => Except.ok (some (objSpread (objSpread [] (baseParams.getD [])) (params.getD [])))

/-- Modelled from the spec: one pairwise step of the reference Match walk
of section 4.1, folded over the zipped template and candidate segments.  A
mapping of none records an earlier no-match; a literal template segment
requires exact equality, a parameter segment a non-empty candidate segment
which is percent-decoded and bound to the parameter name. -/
def segStep (acc : Option (List (String × String))) (pq : String × String) :
    Except Unit (Option (List (String × String))) :=
  match acc with
  | none => Except.ok none
  | some m =>
    if startsWithChar pq.1 ':' then
      if pq.2 = "" then Except.ok none
      else
        match decodeURIComponent pq.2 with
        | none => Except.error ()
        | some d => Except.ok (some (objInsert m (jsSlice1 pq.1) d))
    else if pq.2 = pq.1 then Except.ok (some m) else Except.ok none

/-- Modelled from the spec: the reference Match definition of section 4.1.
Both template and candidate are trimmed and split on slash; differing
segment counts are an immediate no-match; otherwise the segments are walked
pairwise in order accumulating the parameter mapping, starting from the
empty mapping. -/
def Route.matchSpec (r : Route) (candidatePath : String) :
    Except Unit (Option (List (String × String))) :=
  let tmpl := splitSegs r.path
  let cand := splitSegs candidatePath
  if tmpl.length = cand.length then List.foldlM segStep (some []) (tmpl.zip cand)
  else Except.ok none

/-- Modelled from the spec: the reference ResolveByPath scan of section
4.2, on an already normalized path: walk the registered routes in order and
return the first whose Match succeeds, absent when none matches. -/
def firstMatching : List Route → String → Except Unit (Option Route)
  | [], _ => Except.ok none
  | rt :: rts, p => do
    let res ← rt.matchPath p
    match res with
    | some _ => Except.ok (some rt)
    | none => firstMatching rts p

/-- Last-assignment-wins lookup over an entry list: the value the key holds
after all entries are assigned onto an object in order. -/
def objLookupLast (l : List (String × String)) (k : String) : Option String :=
  objLookup l.reverse k

example : trimSlashes "/about/" = "about" := by decide
example : trimSlashes "///" = "/" := by decide
example : trimSlashes "/" = "" := by decide
example : splitSegs "/user/:id" = ["user", ":id"] := by decide
example : splitSegs "/" = [""] := by decide
example : decodeURIComponent "a%20b" = some "a b" := by decide
example : decodeURIComponent "%" = none := by decide
example : Route.matchPath ⟨"/user/:id", 0, none⟩ "/user/42/" =
    Except.ok (some [("id", "42")]) := by decide
example : Route.matchPath ⟨"/user/:id", 0, none⟩ "/user/42/x" = Except.ok none := by decide
example : Route.matchPath ⟨"/user/:id", 0, none⟩ "/user/42" =
    Except.ok (some [("id", "42")]) := by decide
example : Route.matchPath ⟨"/user/:id", 0, none⟩ "/user//" = Except.ok none := by decide
example : Route.matchPath ⟨"/user/:id", 0, none⟩ "/user/%" = Except.error () := by decide

/-- Concrete route used by the witnesses: the about page. -/
def aboutRoute : Route := ⟨"/about", 1, none⟩

/-- Concrete route used by the witnesses: the home page. -/
def homeRoute : Route := ⟨"/", 2, none⟩

/-- Concrete route used by the witnesses: a parameterized user page with
static metadata. -/
def userRoute : Route := ⟨"/user/:id", 3, some [("id", "meta"), ("extra", "m")]⟩

/-- Listener that passes the descriptor through unchanged. -/
def passListener : NavArg → NavArg := fun a => a

/-- Listener that sets the cancellation flag. -/
def cancelListener : NavArg → NavArg := fun a => { a with cancled := true }

/-- Listener that clears the cancellation flag. -/
def clearListener : NavArg → NavArg := fun a => { a with cancled := false }

/-- Concrete router used by the C2 witness: two parameterized routes that
both match the same path. -/
def routerC2 : Router :=
  ⟨[⟨"/user/:userId", 1, none⟩, ⟨"/user/:other", 2, none⟩], [], [], none⟩

/-- Concrete router used by the C3 witness. -/
def routerC3 : Router :=
  ⟨[aboutRoute, homeRoute], [10, 11], [("url-changing", [passListener])], some homeRoute⟩

/-- Concrete router used by the C4 witness. -/
def routerC4 : Router :=
  ⟨[aboutRoute, homeRoute], [10], [("url-changing", [cancelListener])], some homeRoute⟩

/-- Concrete router used by the C5 witness: the first listener cancels, the
second — which still runs — clears the flag again, so the navigation
commits. -/
def routerC5 : Router :=
  ⟨[aboutRoute, homeRoute], [20], [("url-changing", [cancelListener, clearListener])],
    some homeRoute⟩

/-- Concrete router used by the C8 witness: its only route is the current
one and gets unregistered. -/
def routerC8 : Router := ⟨[aboutRoute], [], [], some aboutRoute⟩

/-- Concrete router used by the C9 witness: no current route yet, so the
delivered resolution is computed from the current hash on demand. -/
def routerC9 : Router := ⟨[aboutRoute, homeRoute], [], [], none⟩

example :
    (Router.navigate ⟨[aboutRoute, homeRoute], [10, 11],
        [("url-changing", [passListener])], some homeRoute⟩ "/about" true).map
      (fun p => (p.1.currentRoute, p.2)) =
    Except.ok (some aboutRoute,
      [Effect.updateSlot 10 (some aboutRoute), Effect.updateSlot 11 (some aboutRoute),
        Effect.pushHistory "/#/about"]) := by decide

example :
    (Router.navigate ⟨[aboutRoute, homeRoute], [10],
        [("url-changing", [cancelListener])], some homeRoute⟩ "/about" true).map
      (fun p => (p.1.currentRoute, p.2)) =
    Except.ok (some homeRoute, []) := by decide

example :
    Router.getCurrentParams "/user/42" userRoute =
      Except.ok (some [("id", "42"), ("extra", "m")]) := by decide

example :
    Router.getCurrentParams "/user/42" ⟨"/user/:id", 3, none⟩ =
      Except.ok (some [("id", "42")]) := by decide

example :
    Router.getCurrentParams "/nomatch" ⟨"/user/:id", 3, none⟩ = Except.ok none := by decide

example :
    (Router.registerSlot ⟨[aboutRoute, homeRoute], [], [], none⟩ "#/about" 5).map
      (fun p => (p.1.slots, p.2)) =
    Except.ok ([5], [Effect.updateSlot 5 (some aboutRoute)]) := by decide

@[simp] lemma ok_bind {α β : Type} (a : α) (f : α → Except Unit β) :
    (Except.ok a >>= f) = f a := rfl

@[simp] lemma error_bind {α β : Type} (f : α → Except Unit β) :
    ((Except.error () : Except Unit α) >>= f) = Except.error () := rfl

lemma foldlM_segStep_none (l : List (String × String)) :
    List.foldlM segStep none l = Except.ok none := by
  induction l with
  | nil => rfl
  | cons x xs ih => simpa [List.foldlM, segStep] using ih

lemma matchSegs_eq_foldlM :
    ∀ (pats segs : List String) (acc : List (String × String)),
      pats.length = segs.length →
      matchSegs pats segs acc = List.foldlM segStep (some acc) (pats.zip segs) := by
  intro pats
  induction pats with
  | nil =>
    intro segs acc h
    cases segs with
    | nil => rfl
    | cons s ss => simp at h
  | cons p ps ih =>
    intro segs acc h
    cases segs with
    | nil => simp at h
    | cons s ss =>
      simp only [List.length_cons, Nat.succ.injEq] at h
      simp only [matchSegs, List.zip_cons_cons, List.foldlM, segStep]
      by_cases hp : startsWithChar p ':' = true
      · simp only [hp, if_true]
        by_cases hs : s = ""
        · simp [hs, foldlM_segStep_none]
        · simp only [hs, if_neg, if_false]
          cases hd : decodeURIComponent s with
          | none => simp
          | some d => simpa using ih ss (objInsert acc (jsSlice1 p) d) h
      · simp only [hp, if_false, Bool.false_eq_true]
        by_cases hsp : s = p
        · simpa [hsp] using ih ss acc h
        · simp [hsp, foldlM_segStep_none]

lemma filterMatching_firstMatching :
    ∀ (routes : List Route) (p : String) (l : List Route),
      filterMatching routes p = Except.ok l →
      firstMatching routes p = Except.ok l.head? := by
  intro routes
  induction routes with
  | nil =>
    intro p l h
    simp only [filterMatching, Except.ok.injEq] at h
    subst h; rfl
  | cons rt rts ih =>
    intro p l h
    simp only [filterMatching] at h
    cases hm : rt.matchPath p with
    | error e =>
      rw [hm] at h; cases e; simp at h
    | ok res =>
      rw [hm] at h
      simp only [ok_bind] at h
      cases hf : filterMatching rts p with
      | error e => rw [hf] at h; cases e; simp at h
      | ok rest =>
        rw [hf] at h
        simp only [ok_bind] at h
        cases res with
        | some m =>
          simp only [Except.ok.injEq] at h
          subst h
          simp [firstMatching, hm]
        | none =>
          simp only [Except.ok.injEq] at h
          subst h
          simp only [firstMatching, hm, ok_bind]
          exact ih p rest hf

/-- C2: whenever Router.getRouteByPath returns without a decode error, its
result is exactly what the reference first-match scan of the spec computes
on the trailing-slash-normalized path: the first registered route whose
match succeeds, absent when none matches, with later-registered matching
routes never influencing the result. -/
theorem getRouteByPath_first (r : Router) (path : String) (res : Option Route)
    (h : r.getRouteByPath path = Except.ok res) :
    firstMatching r.routes (if endsWithChar path '/' then path else path ++ "/") =
      Except.ok res := by
  simp only [Router.getRouteByPath] at h
  cases hf : filterMatching r.routes
      (if endsWithChar path '/' then path else path ++ "/") with
  | error e => rw [hf] at h; cases e; simp at h
  | ok l =>
    rw [hf] at h
    simp only [ok_bind, Except.ok.injEq] at h
    rw [filterMatching_firstMatching _ _ _ hf, h]

theorem getRouteByPath_first_witness :
    firstMatching routerC2.routes "/user/7/" = Except.ok (some ⟨"/user/:userId", 1, none⟩) := by
  have h := getRouteByPath_first routerC2 "/user/7" (some ⟨"/user/:userId", 1, none⟩) (by decide)
  have e : (if endsWithChar "/user/7" '/' then "/user/7" else "/user/7" ++ "/") =
      "/user/7/" := by decide
  rw [e] at h
  exact h

lemma objLookup_objInsert_self (l : List (String × String)) (k v : String) :
    objLookup (objInsert l k v) k = some v := by
  induction l with
  | nil => simp [objInsert, objLookup]
  | cons p rest ih =>
    obtain ⟨a, b⟩ := p
    by_cases h : a = k
    · simp [objInsert, h, objLookup]
    · simp [objInsert, h, objLookup, ih]

lemma objLookup_objInsert_ne (l : List (String × String)) (k v k2 : String)
    (h : k2 ≠ k) :
    objLookup (objInsert l k v) k2 = objLookup l k2 := by
  induction l with
  | nil => simp [objInsert, objLookup, Ne.symm h]
  | cons p rest ih =>
    obtain ⟨a, b⟩ := p
    by_cases hp : a = k
    · subst hp
      simp [objInsert, objLookup, Ne.symm h]
    · simp [objInsert, hp, objLookup, ih]

lemma objLookup_append (a b : List (String × String)) (k : String) :
    objLookup (a ++ b) k =
      match objLookup a k with
      | some v => some v
      | none => objLookup b k := by
  induction a with
  | nil => simp [objLookup]
  | cons p rest ih =>
    by_cases h : p.1 = k
    · simp [objLookup, h]
    · simp [objLookup, h, ih]

lemma objLookupLast_cons (p : String × String) (rest : List (String × String)) (k : String) :
    objLookupLast (p :: rest) k =
      match objLookupLast rest k with
      | some v => some v
      | none => if p.1 = k then some p.2 else none := by
  unfold objLookupLast
  rw [List.reverse_cons, objLookup_append]
  cases objLookup rest.reverse k with
  | some v => rfl
  | none => simp [objLookup]

lemma objLookup_objSpread :
    ∀ (add base : List (String × String)) (k : String),
      objLookup (objSpread base add) k =
        match objLookupLast add k with
        | some v => some v
        | none => objLookup base k := by
  intro add
  induction add with
  | nil => intro base k; rfl
  | cons a rest ih =>
    intro base k
    rw [show objSpread base (a :: rest) = objSpread (objInsert base a.1 a.2) rest from rfl]
    rw [ih, objLookupLast_cons]
    cases h : objLookupLast rest k with
    | some v => rfl
    | none =>
      by_cases hk : a.1 = k
      · subst hk; simp [objLookup_objInsert_self]
      · simp [hk, objLookup_objInsert_ne _ _ _ _ (Ne.symm hk)]

lemma option_match_id (x : Option String) :
    (match x with | some v => some v | none => none) = x := by
  cases x <;> rfl

lemma objLookup_double_spread (B M : List (String × String)) (k : String) :
    objLookup (objSpread (objSpread [] B) M) k =
      match objLookupLast M k with
      | some v => some v
      | none => objLookupLast B k := by
  rw [objLookup_objSpread M (objSpread [] B) k, objLookup_objSpread B [] k]
  cases objLookupLast M k with
  | some v => rfl
  | none =>
    cases objLookupLast B k with
    | some v => rfl
    | none => rfl

/-- C7: whenever the route's match on the url does not throw, getCurrentParams
returns absent exactly when both the zero-parameter-normalized match result
and the static metadata are absent, and otherwise returns the shallow merge
of the metadata overlaid by the freshly extracted parameters: looking up any
key in the returned mapping yields the parameter value when the parameters
bind the key, and the metadata value otherwise. -/
theorem getCurrentParams_ok (url : String) (route : Route)
    (pm : Option (List (String × String)))
    (h : route.matchPath url = Except.ok pm) :
    (Router.getCurrentParams url route = Except.ok none ↔
      (normParams pm = none ∧ route.metaInformation = none)) ∧
    (∀ res, Router.getCurrentParams url route = Except.ok (some res) →
      ∀ k, objLookup res k =
        match objLookupLast ((normParams pm).getD []) k with
        | some v => some v
        | none => objLookupLast (route.metaInformation.getD []) k) := by
  simp only [Router.getCurrentParams, h, ok_bind]
  cases hn : normParams pm with
  | none =>
    cases hm : route.metaInformation with
    | none =>
      refine ⟨by simp, ?_⟩
      intro res hres
      simp at hres
    | some base =>
      refine ⟨by simp, ?_⟩
      intro res hres k
      simp only [Except.ok.injEq, Option.some.injEq] at hres
      subst hres
      exact objLookup_double_spread base [] k
  | some m =>
    refine ⟨by simp, ?_⟩
    intro res hres k
    cases hmeta : route.metaInformation with
    | none =>
      rw [hmeta] at hres
      simp only [Except.ok.injEq, Option.some.injEq] at hres
      subst hres
      exact objLookup_double_spread [] m k
    | some base =>
      rw [hmeta] at hres
      simp only [Except.ok.injEq, Option.some.injEq] at hres
      subst hres
      exact objLookup_double_spread base m k

theorem getCurrentParams_ok_witness :
    (Router.getCurrentParams "/user/42" userRoute = Except.ok none ↔
      (normParams (some [("id", "42")]) = none ∧ userRoute.metaInformation = none)) ∧
    (∀ res, Router.getCurrentParams "/user/42" userRoute = Except.ok (some res) →
      ∀ k, objLookup res k =
        match objLookupLast ((normParams (some [("id", "42")])).getD []) k with
        | some v => some v
        | none => objLookupLast (userRoute.metaInformation.getD []) k) :=
  getCurrentParams_ok "/user/42" userRoute (some [("id", "42")]) (by decide)

/-- C1: for every route and candidate path, Route.match behaves exactly as
the reference Match definition written from the spec: trim and split both
template and candidate, no-match on differing segment counts, then a
pairwise walk binding percent-decoded non-empty candidate segments to
parameter names and requiring exact equality on literal segments, returning
the accumulated parameter mapping. -/
theorem matchPath_eq_matchSpec (r : Route) (path : String) :
    r.matchPath path = r.matchSpec path := by
  unfold Route.matchPath Route.matchSpec Route.urlParts
  by_cases h : (splitSegs r.path).length = (splitSegs path).length
  · simpa [h] using matchSegs_eq_foldlM (splitSegs r.path) (splitSegs path) [] h
  · simp [h]

lemma getLast?_append_one (l : List Char) (a : Char) :
    (l ++ [a]).getLast? = some a := by
  induction l with
  | nil => rfl
  | cons c rest ih =>
    rw [List.cons_append, List.getLast?_cons, ih]
    rfl

lemma dropLast_append_one (l : List Char) (a : Char) :
    (l ++ [a]).dropLast = l := by
  induction l with
  | nil => rfl
  | cons c rest ih =>
    cases rest with
    | nil => rfl
    | cons d rest2 => simp [List.dropLast] at ih ⊢

lemma dropLeadingSlash_eq_self (s : String) (h1 : startsWithChar s '/' = false) :
    dropLeadingSlash s.data = s.data := by
  simp only [startsWithChar] at h1
  cases hd : s.data with
  | nil => rfl
  | cons c rest =>
    rw [hd] at h1
    simp only [beq_eq_false_iff_ne, ne_eq] at h1
    simp [dropLeadingSlash, h1]

lemma dropTrailingSlash_eq_self (s : String) (h2 : endsWithChar s '/' = false) :
    dropTrailingSlash s.data = s.data := by
  simp only [endsWithChar] at h2
  unfold dropTrailingSlash
  cases hd : s.data.getLast? with
  | none => rfl
  | some c =>
    rw [hd] at h2
    simp only [beq_eq_false_iff_ne, ne_eq] at h2
    simp [h2]

lemma trimSlashes_fixed (s : String) (h1 : startsWithChar s '/' = false)
    (h2 : endsWithChar s '/' = false) : trimSlashes s = s := by
  unfold trimSlashes
  rw [dropLeadingSlash_eq_self s h1, dropTrailingSlash_eq_self s h2]

lemma dropTrailingSlash_append_one (l : List Char) :
    dropTrailingSlash (l ++ ['/']) = l := by
  unfold dropTrailingSlash
  rw [getLast?_append_one]
  show (if '/' = '/' then (l ++ ['/']).dropLast else l ++ ['/']) = l
  rw [if_pos rfl, dropLast_append_one]

lemma trimSlashes_wrap (s : String) :
    trimSlashes (String.mk ('/' :: (s.data ++ ['/']))) = s := by
  unfold trimSlashes
  have h1 : dropLeadingSlash (String.mk ('/' :: (s.data ++ ['/']))).data =
      s.data ++ ['/'] := by simp [dropLeadingSlash]
  rw [h1, dropTrailingSlash_append_one]

lemma trimSlashes_leadOnly (s : String) (h2 : endsWithChar s '/' = false) :
    trimSlashes (String.mk ('/' :: s.data)) = s := by
  unfold trimSlashes
  have h1 : dropLeadingSlash (String.mk ('/' :: s.data)).data = s.data := by
    simp [dropLeadingSlash]
  rw [h1, dropTrailingSlash_eq_self s h2]

lemma trimSlashes_trailOnly (s : String) (h1 : startsWithChar s '/' = false) :
    trimSlashes (String.mk (s.data ++ ['/'])) = s := by
  cases hd : s.data with
  | nil =>
    show String.mk (dropTrailingSlash (dropLeadingSlash ([] ++ ['/']))) = s
    rw [show dropTrailingSlash (dropLeadingSlash ([] ++ ['/'])) = [] from rfl, ← hd]
  | cons c rest =>
    simp only [startsWithChar, hd] at h1
    have hc : c ≠ '/' := by simpa using h1
    unfold trimSlashes
    show String.mk (dropTrailingSlash (dropLeadingSlash ((c :: rest) ++ ['/']))) = s
    rw [List.cons_append]
    rw [show dropLeadingSlash (c :: (rest ++ ['/'])) = c :: (rest ++ ['/']) by
      simp [dropLeadingSlash, hc]]
    rw [← List.cons_append, dropTrailingSlash_append_one, ← hd]

lemma dropTrailingSlash_length_le (l : List Char) :
    (dropTrailingSlash l).length ≤ l.length := by
  unfold dropTrailingSlash
  cases hg : l.getLast? with
  | none => exact Nat.le_refl _
  | some c =>
    show (if c = '/' then l.dropLast else l).length ≤ l.length
    by_cases hc : c = '/'
    · rw [if_pos hc, List.length_dropLast]
      exact Nat.sub_le _ _
    · rw [if_neg hc]

lemma trimSlashes_length_lt (t : String)
    (h : startsWithChar t '/' = true ∨ endsWithChar t '/' = true) :
    (trimSlashes t).data.length < t.data.length := by
  have hgoal : (dropTrailingSlash (dropLeadingSlash t.data)).length < t.data.length := by
    by_cases hs : startsWithChar t '/' = true
    · simp only [startsWithChar] at hs
      cases hd : t.data with
      | nil => rw [hd] at hs; simp at hs
      | cons c rest =>
        rw [hd] at hs
        simp only [beq_iff_eq] at hs
        subst hs
        rw [show dropLeadingSlash ('/' :: rest) = rest by simp [dropLeadingSlash]]
        exact Nat.lt_succ_of_le (dropTrailingSlash_length_le rest)
    · have hs2 : startsWithChar t '/' = false := by
        cases hb : startsWithChar t '/'
        · rfl
        · exact absurd hb hs
      have he : endsWithChar t '/' = true := by
        cases h with
        | inl hx => exact absurd hx hs
        | inr hx => exact hx
      rw [dropLeadingSlash_eq_self t hs2]
      simp only [endsWithChar] at he
      unfold dropTrailingSlash
      cases hg : t.data.getLast? with
      | none => rw [hg] at he; simp at he
      | some c =>
        rw [hg] at he
        simp only [beq_iff_eq] at he
        subst he
        show (if '/' = '/' then t.data.dropLast else t.data).length < t.data.length
        rw [if_pos rfl, List.length_dropLast]
        have hne : t.data ≠ [] := by
          intro hnil
          rw [hnil] at hg
          simp at hg
        exact Nat.sub_lt (List.length_pos.mpr hne) Nat.one_pos
  exact hgoal

/-- C6 (amended): the slash trim removes exactly one leading and exactly
one trailing slash when present and never collapses interior or repeated
slashes: a string with neither a leading nor a trailing slash is left
unchanged, and its slash-prefixed, slash-suffixed and slash-wrapped forms
each trim back to exactly that string; and the trim is idempotent precisely
on the inputs whose trimmed result again has neither a leading nor a
trailing slash. -/
theorem trimSlashes_amended (s : String) :
    (startsWithChar s '/' = false → endsWithChar s '/' = false →
      trimSlashes s = s ∧
      trimSlashes (String.mk ('/' :: s.data)) = s ∧
      trimSlashes (String.mk (s.data ++ ['/'])) = s ∧
      trimSlashes (String.mk ('/' :: (s.data ++ ['/']))) = s) ∧
    (trimSlashes (trimSlashes s) = trimSlashes s ↔
      (startsWithChar (trimSlashes s) '/' = false ∧
        endsWithChar (trimSlashes s) '/' = false)) := by
  constructor
  · intro h1 h2
    exact ⟨trimSlashes_fixed s h1 h2, trimSlashes_leadOnly s h2,
      trimSlashes_trailOnly s h1, trimSlashes_wrap s⟩
  · constructor
    · intro hidem
      by_cases ha : startsWithChar (trimSlashes s) '/' = true
      · exact absurd hidem (by
          have hlt := trimSlashes_length_lt (trimSlashes s) (Or.inl ha)
          intro heq
          rw [heq] at hlt
          exact Nat.lt_irrefl _ hlt)
      · by_cases hb : endsWithChar (trimSlashes s) '/' = true
        · exact absurd hidem (by
            have hlt := trimSlashes_length_lt (trimSlashes s) (Or.inr hb)
            intro heq
            rw [heq] at hlt
            exact Nat.lt_irrefl _ hlt)
        · constructor
          · cases hv : startsWithChar (trimSlashes s) '/'
            · rfl
            · exact absurd hv ha
          · cases hv : endsWithChar (trimSlashes s) '/'
            · rfl
            · exact absurd hv hb
    · intro hab
      exact trimSlashes_fixed (trimSlashes s) hab.1 hab.2

theorem trimSlashes_amended_witness :
    (trimSlashes "a//b" = "a//b" ∧
      trimSlashes (String.mk ('/' :: ("a//b" : String).data)) = "a//b" ∧
      trimSlashes (String.mk (("a//b" : String).data ++ ['/'])) = "a//b" ∧
      trimSlashes (String.mk ('/' :: (("a//b" : String).data ++ ['/']))) = "a//b") ∧
    (trimSlashes (trimSlashes "a//b") = trimSlashes "a//b" ↔
      (startsWithChar (trimSlashes "a//b") '/' = false ∧
        endsWithChar (trimSlashes "a//b") '/' = false)) :=
  ⟨(trimSlashes_amended "a//b").1 (by decide) (by decide), (trimSlashes_amended "a//b").2⟩

/-- C6 (counterexample): the trim is not idempotent — trimming three bare
slashes yields one slash, and trimming that again yields the empty string,
so the second application changes an already-trimmed result. -/
theorem trimSlashes_not_idempotent :
    trimSlashes (trimSlashes "///") ≠ trimSlashes "///" := by decide

/-- C3: a navigation whose url-changing listeners leave the descriptor
uncancelled commits: the current route becomes the resolved destination and
nothing else of the state changes, every registered slot is informed exactly
once, in registration order, with the new resolution, and exactly one
history entry carrying the encoded url is written when pushState is set and
none otherwise (the entry's uniqueness token comes from the wall clock,
outside this embedding). -/
theorem navigate_commit (r : Router) (url : String) (pushState : Bool)
    (dest : Option Route)
    (hres : r.getRouteByPath url = Except.ok dest)
    (hnc : (r.fireEvent "url-changing"
        { cancled := false, source := r.currentRoute, destination := dest }).cancled = false) :
    r.navigate url pushState = Except.ok ({ r with currentRoute := dest },
      r.slots.map (fun s => Effect.updateSlot s dest) ++
        (if pushState then [Effect.pushHistory ("/#" ++ url)] else [])) ∧
    (∀ s, (r.slots.map (fun s2 => Effect.updateSlot s2 dest)).count
        (Effect.updateSlot s dest) = r.slots.count s) ∧
    (if pushState then [Effect.pushHistory ("/#" ++ url)] else []).length =
      (if pushState then 1 else 0) := by
  refine ⟨?_, ?_, ?_⟩
  · simp only [Router.navigate, hres, ok_bind, hnc]
    simp
  · intro s
    exact List.count_map_of_injective r.slots (fun s2 => Effect.updateSlot s2 dest)
      (fun a b hab => by
        have := Effect.updateSlot.inj hab
        exact this.1) s
  · cases pushState <;> simp

theorem navigate_commit_witness :
    routerC3.navigate "/about" true =
      Except.ok ({ routerC3 with currentRoute := some aboutRoute },
        [Effect.updateSlot 10 (some aboutRoute), Effect.updateSlot 11 (some aboutRoute),
          Effect.pushHistory "/#/about"]) := by
  have h := navigate_commit routerC3 "/about" true (some aboutRoute) (by decide) (by rfl)
  exact h.1.trans (by rfl)

/-- C4: a navigation whose url-changing listeners leave the descriptor
cancelled performs no state mutation at all — the router state, including
the current route, the route list, and the slot list, is returned exactly
as it was — and produces no slot notification and no history write. -/
theorem navigate_cancelled (r : Router) (url : String) (pushState : Bool)
    (dest : Option Route)
    (hres : r.getRouteByPath url = Except.ok dest)
    (hc : (r.fireEvent "url-changing"
        { cancled := false, source := r.currentRoute, destination := dest }).cancled = true) :
    r.navigate url pushState = Except.ok (r, []) := by
  simp only [Router.navigate, hres, ok_bind, hc]
  simp

theorem navigate_cancelled_witness :
    routerC4.navigate "/about" true = Except.ok (routerC4, []) :=
  navigate_cancelled routerC4 "/about" true (some aboutRoute) (by decide) (by rfl)

/-- C5: navigate builds one descriptor initialized with cancelled = false,
source = the current route and destination = the resolved route, and folds
it through all url-changing listeners in registration order with no
short-circuit: however the listener list is split, the descriptor reaching
the later listeners is the one the earlier listeners produced — even a
cancelled one — and the whole navigation outcome is decided by the
descriptor the full fold returns. -/
theorem navigate_listener_order (r : Router) (url : String) (pushState : Bool)
    (dest : Option Route) (pre post : List (NavArg → NavArg))
    (hres : r.getRouteByPath url = Except.ok dest)
    (hl : lookupEvent r.events "url-changing" = some (pre ++ post)) :
    r.fireEvent "url-changing"
        { cancled := false, source := r.currentRoute, destination := dest } =
      post.foldl (fun a h => h a)
        (pre.foldl (fun a h => h a)
          ({ cancled := false, source := r.currentRoute, destination := dest } : NavArg)) ∧
    r.navigate url pushState =
      (if (post.foldl (fun a h => h a)
            (pre.foldl (fun a h => h a)
              ({ cancled := false, source := r.currentRoute, destination := dest } : NavArg))).cancled
        then Except.ok (r, [])
        else Except.ok ({ r with currentRoute := dest },
          r.slots.map (fun s => Effect.updateSlot s dest) ++
            (if pushState then [Effect.pushHistory ("/#" ++ url)] else []))) := by
  have hfe : r.fireEvent "url-changing"
      { cancled := false, source := r.currentRoute, destination := dest } =
      post.foldl (fun a h => h a)
        (pre.foldl (fun a h => h a)
          ({ cancled := false, source := r.currentRoute, destination := dest } : NavArg)) := by
    simp only [Router.fireEvent, hl, List.foldl_append]
  refine ⟨hfe, ?_⟩
  simp only [Router.navigate, hres, ok_bind, hfe]

theorem navigate_listener_order_witness :
    routerC5.navigate "/about" true =
      Except.ok ({ routerC5 with currentRoute := some aboutRoute },
        [Effect.updateSlot 20 (some aboutRoute), Effect.pushHistory "/#/about"]) := by
  have h := navigate_listener_order routerC5 "/about" true (some aboutRoute)
    [cancelListener] [clearListener] (by decide) (by rfl)
  exact h.2.trans (by rfl)

/-- C8: unregistering routes — whether or not the current route is among
them — changes only the registered route list (removing the first identity
hit of each listed route in turn): the slot list, the listener table and
the current route are untouched, so a removed current route stays current
until the next successful navigation. -/
theorem unregisterRoutes_frame (r : Router) (rem : List Route) :
    (r.unregisterRoutes rem).slots = r.slots ∧
    (r.unregisterRoutes rem).events = r.events ∧
    (r.unregisterRoutes rem).currentRoute = r.currentRoute ∧
    (r.unregisterRoutes rem).routes = rem.foldl removeFirst r.routes ∧
    (∀ rt, r.currentRoute = some rt → (r.unregisterRoutes rem).currentRoute = some rt) :=
  ⟨rfl, rfl, rfl, rfl, fun _ h => h⟩

theorem unregisterRoutes_frame_witness :
    (routerC8.unregisterRoutes [aboutRoute]).currentRoute = some aboutRoute :=
  (unregisterRoutes_frame routerC8 [aboutRoute]).2.2.2.2 aboutRoute rfl

/-- C9: registering a slot delivers the current resolution to exactly that
slot synchronously, during the registration call itself: the slot is
appended to the slot list, nothing else of the state changes, and the one
notification carries the current route when set, and otherwise the
resolution computed on demand from the current url — so a slot registered
after a navigation receives the active resolution at once. -/
theorem registerSlot_delivers (r : Router) (hash : String) (slot : Nat)
    (r2 : Router) (effs : List Effect)
    (h : r.registerSlot hash slot = Except.ok (r2, effs)) :
    r2.routes = r.routes ∧ r2.slots = r.slots ++ [slot] ∧ r2.events = r.events ∧
    r2.currentRoute = r.currentRoute ∧
    (∀ c, r.currentRoute = some c → effs = [Effect.updateSlot slot (some c)]) ∧
    (r.currentRoute = none → ∀ cur, r.getCurrentRoute hash = Except.ok cur →
      effs = [Effect.updateSlot slot cur]) := by
  obtain ⟨rts, sls, evs, cr⟩ := r
  simp only [Router.registerSlot] at h
  cases cr with
  | some c =>
    simp only [ok_bind, Except.ok.injEq, Prod.mk.injEq] at h
    obtain ⟨h1, h2⟩ := h
    subst h1
    refine ⟨rfl, rfl, rfl, rfl, ?_, ?_⟩
    · intro c2 hc2
      injection hc2 with hc2
      subst hc2
      exact h2.symm
    · intro hn
      exact Option.noConfusion hn
  | none =>
    cases hg : Router.getCurrentRoute ⟨rts, sls ++ [slot], evs, none⟩ hash with
    | error e =>
      rw [hg] at h
      simp only [error_bind] at h
      exact Except.noConfusion h
    | ok cur =>
      rw [hg] at h
      simp only [ok_bind, Except.ok.injEq, Prod.mk.injEq] at h
      obtain ⟨h1, h2⟩ := h
      subst h1
      refine ⟨rfl, rfl, rfl, rfl, ?_, ?_⟩
      · intro c2 hc2
        exact Option.noConfusion hc2
      · intro _ cur2 hcur2
        have hsame : Router.getCurrentRoute ⟨rts, sls, evs, none⟩ hash =
            Router.getCurrentRoute ⟨rts, sls ++ [slot], evs, none⟩ hash := rfl
        rw [hsame, hg] at hcur2
        injection hcur2 with hcur2
        subst hcur2
        exact h2.symm

theorem registerSlot_delivers_witness :
    routerC9.registerSlot "#/about" 5 =
      Except.ok ({ routerC9 with slots := routerC9.slots ++ [5] },
        [Effect.updateSlot 5 (some aboutRoute)]) ∧
    ([Effect.updateSlot 5 (some aboutRoute)] : List Effect) =
      [Effect.updateSlot 5 (some aboutRoute)] := by
  refine ⟨rfl, ?_⟩
  exact (registerSlot_delivers routerC9 "#/about" 5
      { routerC9 with slots := routerC9.slots ++ [5] }
      [Effect.updateSlot 5 (some aboutRoute)] rfl).2.2.2.2.2 rfl (some aboutRoute) rfl

/-- C10: Route.match is not total on the candidate path: a parameter
segment whose candidate segment is a malformed percent escape makes the
percent decoding throw, so the match reaches the error branch of the
embedding rather than returning a mapping or a no-match. -/
theorem matchPath_error_reachable :
    Route.matchPath ⟨"/:id", 0, none⟩ "/%" = Except.error () := by decide
